import Mathlib

/-!
Shallow embedding of the blackjack table engine
(`src/backend/src/engine/shoe.ts`, `src/backend/src/engine/state.ts`,
and the rules module re-exported through `src/backend/src/config.ts`:
`calculateHandValue`, `isBlackjack`, `isBust`, `shouldDealerHit`,
`determineHandResult`), together with theorems settling the frozen
claims about the specification.

Machine numbers are modelled as `Nat`/`Int`; 32-bit JavaScript bitwise
arithmetic in the shoe RNG is modelled with explicit `% 2^32`.
-/

namespace Blackjack

/-! ## Rules (`rules.ts`, re-exported via `config.ts`) -/

/-- The raw sum of a hand with every ace counted as 11
(the accumulation loop of `calculateHandValue` before ace adjustment). -/
def rawValue (cards : List Nat) : Nat :=
  cards.foldl (fun acc c => acc + (if c = 1 then 11 else c)) 0

/-- The number of aces in a hand. -/
def aceCount (cards : List Nat) : Nat :=
  (cards.filter (fun c => c = 1)).length

/-- The `while (value > 21 && aces > 0) { value -= 10; aces--; }` loop of
`calculateHandValue`. -/
def adjustAces : Nat → Nat → Nat
  | v, 0 => v
  | v, a + 1 => if v > 21 then adjustAces (v - 10) a else v

/-- `calculateHandValue(cards)`: sum with aces as 11, then demote aces
from 11 to 1 while the total exceeds 21. -/
def calculateHandValue (cards : List Nat) : Nat :=
  adjustAces (rawValue cards) (aceCount cards)

/-- `isBlackjack(cards)`: exactly two cards totalling 21. -/
def isBlackjack (cards : List Nat) : Bool :=
  cards.length = 2 && calculateHandValue cards = 21

/-- `isBust(cards)`: hand value above 21. -/
def isBust (cards : List Nat) : Bool :=
  calculateHandValue cards > 21

/-- The ace-demotion loop inside `shouldDealerHit`: it walks the same
`while (tempValue > 21 && aces > 0)` loop as `calculateHandValue` but
sets the flag only when a demotion step lands exactly on 17. -/
def softSeventeenLoop : Nat → Nat → Bool → Bool
  | _, 0, flag => flag
  | v, a + 1, flag =>
    if v > 21 then softSeventeenLoop (v - 10) a (flag || (v - 10 = 17)) else flag

/-- `shouldDealerHit(dealerCards)`: hit below 17; at exactly 17 consult the
demotion-loop flag (the code's soft-17 test); stand above 17. -/
def shouldDealerHit (dealerCards : List Nat) : Bool :=
  let value := calculateHandValue dealerCards
  if value = 17 then
    softSeventeenLoop (rawValue dealerCards) (aceCount dealerCards) false
  else
    decide (value < 17)

/-- `HandResult` from `rules.ts`. -/
inductive HandResult where
  | win
  | lose
  | push
deriving DecidableEq

/-- `determineHandResult(playerCards, dealerCards)`. -/
def determineHandResult (playerCards dealerCards : List Nat) : HandResult :=
  let playerValue := calculateHandValue playerCards
  let dealerValue := calculateHandValue dealerCards
  let playerBlackjack := isBlackjack playerCards
  let dealerBlackjack := isBlackjack dealerCards
  if isBust playerCards then .lose
  else if isBust dealerCards then .win
  else if playerBlackjack && dealerBlackjack then .push
  else if playerBlackjack && !dealerBlackjack then .win
  else if !playerBlackjack && dealerBlackjack then .lose
  else if playerValue > dealerValue then .win
  else if playerValue < dealerValue then .lose
  else .push

/-! ## Shoe (`shoe.ts`)

The mulberry32 generator runs on JavaScript doubles, but every value that
reaches a bitwise operator is first coerced to 32 bits, and the only
non-bitwise steps (the seed accumulator and `t + Math.imul(...)`) stay
below 2^53, so they are exact; `Math.floor(rng() * (i + 1))` is likewise
exact because `t * (i + 1) < 2^40 < 2^53`.  The whole generator is
therefore faithfully represented by `Nat` arithmetic modulo `2^32`. -/

def U32 : Nat := 4294967296

/-- One step of the mulberry32 generator: takes the seed accumulator,
returns the updated accumulator and the 32-bit output numerator
(the JS code returns `numerator / 2^32`). -/
def mulberry32Step (seed : Nat) : Nat × Nat :=
  let s := seed + 0x6D2B79F5
  let t0 := s % U32
  let t1 := ((t0 ^^^ (t0 >>> 15)) * (t0 ||| 1)) % U32
  let u := ((t1 ^^^ (t1 >>> 7)) * (t1 ||| 61)) % U32
  let t2 := t1 ^^^ ((t1 + u) % U32)
  let t3 := t2 ^^^ (t2 >>> 14)
  (s, t3)

/-- Swap of two list positions, as the destructuring assignment
`[cards[i], cards[j]] = [cards[j], cards[i]]`. -/
def swapCards (l : List Nat) (i j : Nat) : List Nat :=
  let a := l.getD i 0
  let b := l.getD j 0
  (l.set i b).set j a

/-- The Fisher–Yates loop of `Shoe.shuffle`, indexing from `i` down to 1;
`out * (i + 1) / 2^32` is the exact value of
`Math.floor(rng() * (i + 1))`. -/
def fisherYatesAux : Nat → List Nat → Nat → List Nat × Nat
  | 0, cards, st => (cards, st)
  | i + 1, cards, st =>
    let (st', out) := mulberry32Step st
    let j := out * (i + 2) / U32
    fisherYatesAux i (swapCards cards (i + 1) j) st'

/-- `Shoe.shuffle`: seeded Fisher–Yates over the whole card list. -/
def shuffleCards (seed : Nat) (cards : List Nat) : List Nat :=
  (fisherYatesAux (cards.length - 1) cards seed).1

/-- One deck as built by `Shoe.reset`: 4 aces, 4 each of 2–9, 16 tens,
in exactly the push order of the source. -/
def oneDeck : List Nat :=
  List.replicate 4 1 ++
    (List.range 8).flatMap (fun v => List.replicate 4 (v + 2)) ++
    List.replicate 16 10

/-- The unshuffled population of `decks` decks. -/
def freshCards (decks : Nat) : List Nat :=
  (List.replicate decks oneDeck).flatten

/-- `Shoe`: card order, number of dealt cards, and the seed stored at
construction. -/
structure Shoe where
  cards : List Nat
  dealt : Nat
  seed : Nat
deriving DecidableEq

/-- `Shoe.reset(decks)`: rebuild the population and shuffle it with the
stored seed; `dealt` returns to 0.  The stored seed is read, never
written. -/
def Shoe.reset (s : Shoe) (decks : Nat) : Shoe :=
  { cards := shuffleCards s.seed (freshCards decks), dealt := 0, seed := s.seed }

/-- The `Shoe` constructor: store the seed, then `reset(decks)`. -/
def Shoe.new (seed : Nat) (decks : Nat) : Shoe :=
  Shoe.reset { cards := [], dealt := 0, seed := seed } decks

/-- `Shoe.draw()`: `none` once exhausted, else the next card. -/
def Shoe.draw (s : Shoe) : Option Nat × Shoe :=
  if s.dealt ≥ s.cards.length then (none, s)
  else (some (s.cards.getD s.dealt 0), { s with dealt := s.dealt + 1 })

/-- `Shoe.getCardsRemaining()`. -/
def Shoe.getCardsRemaining (s : Shoe) : Nat :=
  s.cards.length - s.dealt

/-- `Shoe.getPenetration()`: dealt / total (0 for an empty shoe). -/
def Shoe.getPenetration (s : Shoe) : ℚ :=
  if s.cards.length = 0 then 0 else (s.dealt : ℚ) / (s.cards.length : ℚ)

/-- Hi-Lo contribution of one card, as in `Shoe.getRunningCount`. -/
def hiLo (card : Nat) : Int :=
  if 2 ≤ card ∧ card ≤ 6 then 1
  else if card = 10 ∨ card = 1 then -1
  else 0

/-- `Shoe.getRunningCount()`: sum of Hi-Lo contributions over the dealt
prefix. -/
def Shoe.getRunningCount (s : Shoe) : Int :=
  ((s.cards.take s.dealt).map hiLo).sum

/-- The list of results of `n` successive `draw()` calls. -/
def Shoe.drawSeq : Shoe → Nat → List (Option Nat)
  | _, 0 => []
  | s, n + 1 =>
    let (c, s') := s.draw
    c :: Shoe.drawSeq s' n

/-- The shoe state after `n` successive `draw()` calls. -/
def Shoe.drawN : Shoe → Nat → Shoe
  | s, 0 => s
  | s, n + 1 => Shoe.drawN s.draw.2 n

/-! ## Table state (`state.ts`)

The engine's side channels (console logging, WebSocket broadcasting and
the `debug` telemetry block, which no gameplay decision reads) are not
modelled; agent clients are external collaborators, so the model covers
the agentless (manual) code paths of the state machine, which are the
ones every agent call funnels through (`placeBet`, `applyPlayerAction`). -/

/-- `TAction` from the shared schemas; the engine's `switch` only has
live cases for `hit` and `stand`. -/
inductive Action where
  | hit
  | stand
  | double
  | split
deriving DecidableEq

/-- A chat entry `{from, text}`. -/
structure ChatMsg where
  msgFrom : String
  text : String
deriving DecidableEq

/-- A seat (`Player` interface), gameplay fields only. -/
structure Player where
  id : String
  seat : Nat
  cards : List Nat
  bet : Int
  isStanding : Bool
  isBusted : Bool
  lastAction : Option Action
  bankroll : Int
deriving DecidableEq

/-- The dealer record. -/
structure Dealer where
  cards : List Nat
  isStanding : Bool
  isBusted : Bool
deriving DecidableEq

/-- The table phase. -/
inductive Phase where
  | waiting
  | betting
  | dealing
  | decisions
  | dealer
  | settling
  | finished
deriving DecidableEq

/-- `GameState`, gameplay fields only (the `debug` block is telemetry). -/
structure GameState where
  handNumber : Nat
  shoe : Shoe
  dealer : Dealer
  players : List Player
  chat : List ChatMsg
  phase : Phase
  currentPlayerIndex : Int
  maxPlayers : Nat
deriving DecidableEq

/-- One seat of the constructor's player list. -/
def initPlayer (id : String) (seat : Nat) : Player :=
  { id := id, seat := seat, cards := [], bet := 0, isStanding := false,
    isBusted := false, lastAction := none, bankroll := 100 }

/-- The `TableState` constructor state (the seed stands for
`Date.now()`). -/
def initState (seed : Nat) : GameState :=
  { handNumber := 0
    shoe := Shoe.new seed 4
    dealer := { cards := [], isStanding := false, isBusted := false }
    players := [initPlayer "Pat Python" 0, initPlayer "Dee DotNet" 1,
                initPlayer "Tom TypeScript" 2]
    chat := []
    phase := .waiting
    currentPlayerIndex := -1
    maxPlayers := 3 }

/-- `players.find(p => p.seat === seat)`: the first seat match. -/
def findPlayer : List Player → Nat → Option Player
  | [], _ => none
  | p :: ps, seat => if p.seat = seat then some p else findPlayer ps seat

/-- In-place mutation of the player found by `find`: apply `f` to the
first list entry with the given seat. -/
def updatePlayer : List Player → Nat → (Player → Player) → List Player
  | [], _, _ => []
  | p :: ps, seat, f =>
    if p.seat = seat then f p :: ps else p :: updatePlayer ps seat f

/-! ### Public views -/

/-- One entry of `TPublicSnapshot.players`. -/
structure SnapPlayer where
  id : String
  seat : Nat
  visibleCards : List Nat
  lastAction : Option Action
  bet : Int
  balance : Int
deriving DecidableEq

/-- `TPublicSnapshot` (`runningCount` is present in the snapshot built by
`getPublicSnapshot` and absent from the one built by `buildAgentIO`). -/
structure PublicSnapshot where
  handNumber : Nat
  shoePenetration : ℚ
  runningCount : Option Int
  players : List SnapPlayer
  dealerUpcard : Nat
  chat : List ChatMsg
deriving DecidableEq

/-- The player-to-snapshot projection shared by both snapshot builders. -/
def snapOfPlayer (p : Player) : SnapPlayer :=
  { id := p.id, seat := p.seat, visibleCards := p.cards,
    lastAction := p.lastAction, bet := p.bet, balance := p.bankroll }

/-- `getPublicSnapshot()`: the dealer appears only as
`dealer.cards.length > 0 ? dealer.cards[0] : 1`. -/
def getPublicSnapshot (s : GameState) : PublicSnapshot :=
  { handNumber := s.handNumber
    shoePenetration := s.shoe.getPenetration
    runningCount := some s.shoe.getRunningCount
    players := s.players.map snapOfPlayer
    dealerUpcard := s.dealer.cards.headD 1
    chat := s.chat }

/-- `TPrivateInfo`. -/
structure PrivateInfo where
  mySeat : Nat
  bankroll : Int
  myHoleCards : List Nat
deriving DecidableEq

/-- `TAgentIO`. -/
structure AgentIO where
  role : String
  pub : PublicSnapshot
  me : PrivateInfo
deriving DecidableEq

/-- `buildAgentIO(seat, role)`: `none` models the thrown error when no
player sits at `seat`; the dealer appears only as
`dealer.cards[0] ?? 1`. -/
def buildAgentIO (s : GameState) (seat : Nat) (role : String) : Option AgentIO :=
  match findPlayer s.players seat with
  | none => none
  | some player =>
    some
      { role := role
        pub :=
          { handNumber := s.handNumber
            shoePenetration := s.shoe.getPenetration
            runningCount := none
            players := s.players.map snapOfPlayer
            dealerUpcard := s.dealer.cards.headD 1
            chat := s.chat }
        me := { mySeat := seat, bankroll := player.bankroll,
                myHoleCards := player.cards } }

/-! ### Engine operations -/

/-- `placeBet(seat, amount)`: the returned flag plus the (possibly
unchanged) state. -/
def placeBet (s : GameState) (seat : Nat) (amount : Int) : Bool × GameState :=
  if s.phase ≠ .betting then (false, s)
  else
    match findPlayer s.players seat with
    | none => (false, s)
    | some player =>
      let availableBalance := player.bankroll + player.bet
      if amount < 0 ∨ amount > availableBalance ∨ amount > 100 then (false, s)
      else
        let upd := fun (p : Player) =>
          let refunded := if p.bet > 0 then p.bankroll + p.bet else p.bankroll
          { p with bet := amount,
                   bankroll := if amount > 0 then refunded - amount else refunded }
        (true, { s with players := updatePlayer s.players seat upd })

/-- `startNewHand()`: bump the hand counter, enter `betting`, reshuffle
below 20 remaining cards, clear dealer, hands, bets and chat. -/
def startNewHand (s : GameState) : GameState :=
  { s with
    handNumber := s.handNumber + 1
    phase := .betting
    currentPlayerIndex := -1
    shoe := if s.shoe.getCardsRemaining < 20 then s.shoe.reset 4 else s.shoe
    dealer := { cards := [], isStanding := false, isBusted := false }
    players := s.players.map (fun p =>
      { p with cards := [], bet := 0, isStanding := false, isBusted := false,
               lastAction := none })
    chat := [] }

/-- `allPlayersHaveBet()` on a table without agent clients: every manual
seat needs a bet of at least 5. -/
def allPlayersHaveBet (s : GameState) : Bool :=
  s.players.all (fun p => 5 ≤ p.bet)

/-- One pass of the per-player loop in `dealInitialCards`: deal a card to
each seat in list order, threading the shoe; a `null` draw is skipped. -/
def dealToPlayers : Shoe → List Player → Shoe × List Player
  | shoe, [] => (shoe, [])
  | shoe, p :: ps =>
    let r := shoe.draw
    let p' := match r.1 with
      | some card => { p with cards := p.cards ++ [card] }
      | none => p
    let rest := dealToPlayers r.2 ps
    (rest.1, p' :: rest.2)

/-- One round of `dealInitialCards`: all seats, then the dealer. -/
def dealRound (s : GameState) : GameState :=
  let dp := dealToPlayers s.shoe s.players
  let r := dp.1.draw
  let dealerCards := match r.1 with
    | some card => s.dealer.cards ++ [card]
    | none => s.dealer.cards
  { s with shoe := r.2, players := dp.2,
           dealer := { s.dealer with cards := dealerCards } }

/-- `dealInitialCards()`: two rounds, then mark two-card blackjacks
standing. -/
def dealInitialCards (s : GameState) : GameState :=
  let s' := dealRound (dealRound s)
  { s' with players := s'.players.map (fun p =>
      if isBlackjack p.cards then { p with isStanding := true } else p) }

/-- `startDealing()`: guarded phase change plus the initial deal; a
failed guard throws before any mutation, leaving the state unchanged. -/
def startDealing (s : GameState) : GameState :=
  if s.phase ≠ .betting ∨ ¬allPlayersHaveBet s then s
  else dealInitialCards { s with phase := .dealing }

/-- The `while (shouldDealerHit(...))` loop of `playDealerHand`,
returning the final shoe, dealer cards and bust flag.  The fuel starts
at one more than the cards remaining, so it never runs out before the
shoe itself does (each successful draw consumes one remaining card). -/
def dealerLoop : Nat → Shoe → List Nat → Shoe × List Nat × Bool
  | 0, shoe, cards => (shoe, cards, false)
  | fuel + 1, shoe, cards =>
    if shouldDealerHit cards then
      match shoe.draw with
      | (none, shoe') => (shoe', cards, false)
      | (some c, shoe') =>
        let cards' := cards ++ [c]
        if isBust cards' then (shoe', cards', true)
        else dealerLoop fuel shoe' cards'
    else (shoe, cards, false)

/-- `playDealerHand()`: run the dealer loop, mark the dealer standing,
enter `settling`. -/
def playDealerHand (s : GameState) : GameState :=
  let r := dealerLoop (s.shoe.getCardsRemaining + 1) s.shoe s.dealer.cards
  { s with shoe := r.1
           dealer := { cards := r.2.1, isStanding := true, isBusted := r.2.2 }
           phase := .settling }

/-- One per-seat settlement result. -/
structure SettleResult where
  seat : Nat
  result : HandResult
  payout : Int
deriving DecidableEq

/-- The per-seat body of `settleHands`: the updated player and the
reported result. -/
def settlePlayer (dealerCards : List Nat) (p : Player) : Player × SettleResult :=
  match determineHandResult p.cards dealerCards with
  | .win =>
    let payout : Int := if isBlackjack p.cards then (3 * p.bet).fdiv 2 else p.bet
    ({ p with bankroll := p.bankroll + p.bet + payout },
     { seat := p.seat, result := .win, payout := payout })
  | .lose => (p, { seat := p.seat, result := .lose, payout := 0 })
  | .push =>
    ({ p with bankroll := p.bankroll + p.bet },
     { seat := p.seat, result := .push, payout := 0 })

/-- `settleHands()`: settle every seat against the dealer hand, enter
`finished`, return the results list. -/
def settleHands (s : GameState) : List SettleResult × GameState :=
  let settled := s.players.map (settlePlayer s.dealer.cards)
  (settled.map Prod.snd,
   { s with players := settled.map Prod.fst, phase := .finished })

/-- `findNextActivePlayer()`: pick the first seat after the current one
that can still act; with none left, fall through to the automatic dealer
play and settlement. -/
def findNextActivePlayer (s : GameState) : GameState :=
  match s.players.find? (fun p =>
      decide ((p.seat : Int) > s.currentPlayerIndex) && !p.isStanding &&
      !p.isBusted && decide (calculateHandValue p.cards < 21)) with
  | some p => { s with currentPlayerIndex := (p.seat : Int) }
  | none =>
    (settleHands (playDealerHand
      { s with currentPlayerIndex := -1, phase := .dealer })).2

/-- `startDecisionPhase()` (agentless part): enter `decisions` and seek
the first active seat; a repeated call is ignored. -/
def startDecisionPhase (s : GameState) : GameState :=
  if s.phase = .decisions then s
  else findNextActivePlayer { s with phase := .decisions, currentPlayerIndex := -1 }

/-- The per-action player update inside `applyPlayerAction` (the
`lastAction` write plus the `switch`); `double`/`split` have no live
case.  Returns the updated player and shoe. -/
def actOnPlayer (shoe : Shoe) (p : Player) : Action → Player × Shoe
  | .hit =>
    match shoe.draw with
    | (none, shoe') => ({ p with lastAction := some .hit }, shoe')
    | (some card, shoe') =>
      let cards' := p.cards ++ [card]
      if isBust cards' then
        ({ p with lastAction := some .hit, cards := cards',
                  isBusted := true, isStanding := true }, shoe')
      else if calculateHandValue cards' = 21 then
        ({ p with lastAction := some .hit, cards := cards',
                  isStanding := true }, shoe')
      else
        ({ p with lastAction := some .hit, cards := cards' }, shoe')
  | .stand => ({ p with lastAction := some .stand, isStanding := true }, shoe)
  | a => ({ p with lastAction := some a }, shoe)

/-- `applyPlayerAction(seat, action)`: reject ineligible seats, apply
the action, then advance to the next active player if the seat is now
standing or busted. -/
def applyPlayerAction (s : GameState) (seat : Nat) (action : Action) :
    Bool × GameState :=
  match findPlayer s.players seat with
  | none => (false, s)
  | some player =>
    if player.isStanding || player.isBusted then (false, s)
    else
      let acted := actOnPlayer s.shoe player action
      let s' := { s with shoe := acted.2,
                         players := updatePlayer s.players seat (fun _ => acted.1) }
      if acted.1.isStanding || acted.1.isBusted then
        (true, findNextActivePlayer s')
      else
        (true, s')

/-- `resetEntireGame()`: back to the constructor state (with the fresh
`Date.now()` seed as a parameter). -/
def resetEntireGame (_s : GameState) (newSeed : Nat) : GameState :=
  initState newSeed

/-! ### Reachability -/

/-- One engine operation, as invoked through the transport layer. -/
inductive Step : GameState → GameState → Prop where
  | placeBet (s : GameState) (seat : Nat) (amount : Int) :
      Step s (placeBet s seat amount).2
  | startNewHand (s : GameState) : Step s (startNewHand s)
  | startDealing (s : GameState) : Step s (startDealing s)
  | startDecisionPhase (s : GameState) : Step s (startDecisionPhase s)
  | applyPlayerAction (s : GameState) (seat : Nat) (action : Action) :
      Step s (applyPlayerAction s seat action).2
  | playDealerHand (s : GameState) : Step s (playDealerHand s)
  | settleHands (s : GameState) : Step s (settleHands s).2
  | resetEntireGame (s : GameState) (newSeed : Nat) :
      Step s (resetEntireGame s newSeed)

/-- States reachable from some constructor state by engine operations. -/
inductive Reachable : GameState → Prop where
  | init (seed : Nat) : Reachable (initState seed)
  | step {s t : GameState} : Reachable s → Step s t → Reachable t

/-! ## Helper lemmas -/

/-- `draw` never writes the stored seed. -/
lemma Shoe.draw_seed (s : Shoe) : s.draw.2.seed = s.seed := by
  unfold Shoe.draw
  split <;> rfl

/-- Any number of draws leaves the stored seed unchanged. -/
lemma Shoe.drawN_seed (s : Shoe) (k : Nat) : (s.drawN k).seed = s.seed := by
  induction k generalizing s with
  | zero => rfl
  | succ k ih => rw [Shoe.drawN, ih, Shoe.draw_seed]

/-- `reset` is a function of the stored seed and the deck count alone. -/
lemma Shoe.reset_eq (s : Shoe) (decks : Nat) :
    s.reset decks =
      { cards := shuffleCards s.seed (freshCards decks), dealt := 0, seed := s.seed } :=
  rfl

/-- Two lists with the same optional head have the same `headD`. -/
lemma headD_congr {l₁ l₂ : List Nat} (h : l₁.head? = l₂.head?) :
    l₁.headD 1 = l₂.headD 1 := by
  cases l₁ <;> cases l₂ <;> simp_all

/-- Reduction of `placeBet` once the phase check passes and the seat is
occupied. -/
lemma placeBet_found (s : GameState) (seat : Nat) (amount : Int) (p : Player)
    (hph : s.phase = .betting) (hp : findPlayer s.players seat = some p) :
    placeBet s seat amount =
      if amount < 0 ∨ amount > p.bankroll + p.bet ∨ amount > 100 then (false, s)
      else
        (true, { s with players := updatePlayer s.players seat (fun q =>
          { q with bet := amount,
                   bankroll :=
                     if amount > 0 then
                       (if q.bet > 0 then q.bankroll + q.bet else q.bankroll) - amount
                     else
                       if q.bet > 0 then q.bankroll + q.bet else q.bankroll }) }) := by
  unfold placeBet
  rw [if_neg (by simp [hph]), hp]

/-- Updating the found seat relocates the find to the updated player,
provided the update keeps the seat number. -/
lemma findPlayer_updatePlayer {ps : List Player} {seat : Nat} {p : Player}
    (h : findPlayer ps seat = some p) (f : Player → Player)
    (hf : (f p).seat = p.seat) :
    findPlayer (updatePlayer ps seat f) seat = some (f p) := by
  induction ps with
  | nil => simp [findPlayer] at h
  | cons r rs ih =>
    simp only [findPlayer] at h
    simp only [updatePlayer]
    by_cases hseat : r.seat = seat
    · rw [if_pos hseat] at h
      injection h with h
      subst h
      rw [if_pos hseat, findPlayer, if_pos (by rw [hf, hseat])]
    · rw [if_neg hseat] at h
      rw [if_neg hseat, findPlayer, if_neg hseat]
      exact ih h


/-! ### Money invariant machinery -/

/-- Non-negative bankroll and escrowed bet on every seat. -/
def MoneyOk (ps : List Player) : Prop :=
  ∀ p ∈ ps, 0 ≤ p.bankroll ∧ 0 ≤ p.bet

/-- The player located by `findPlayer` is a member of the list. -/
lemma findPlayer_mem {ps : List Player} {seat : Nat} {p : Player}
    (h : findPlayer ps seat = some p) : p ∈ ps := by
  induction ps with
  | nil => simp [findPlayer] at h
  | cons r rs ih =>
    simp only [findPlayer] at h
    by_cases hs : r.seat = seat
    · rw [if_pos hs] at h
      injection h with h
      rw [← h]
      exact List.mem_cons_self _ _
    · rw [if_neg hs] at h
      exact List.mem_cons_of_mem _ (ih h)

/-- A member of `updatePlayer ps seat f` is an old member or the image
under `f` of the player `findPlayer` locates. -/
lemma mem_updatePlayer_cases {seat : Nat} {f : Player → Player} {q p : Player}
    {ps : List Player} (hfind : findPlayer ps seat = some p)
    (hq : q ∈ updatePlayer ps seat f) : q ∈ ps ∨ q = f p := by
  induction ps with
  | nil => simp [updatePlayer] at hq
  | cons r rs ih =>
    simp only [findPlayer] at hfind
    simp only [updatePlayer] at hq
    by_cases h : r.seat = seat
    · rw [if_pos h] at hfind hq
      injection hfind with hfind
      rcases List.mem_cons.mp hq with h1 | h1
      · right
        rw [h1, hfind]
      · left
        exact List.mem_cons_of_mem _ h1
    · rw [if_neg h] at hfind hq
      rcases List.mem_cons.mp hq with h1 | h1
      · left
        rw [h1]
        exact List.mem_cons_self _ _
      · rcases ih hfind h1 with h2 | h2
        · left
          exact List.mem_cons_of_mem _ h2
        · right
          exact h2

/-- `MoneyOk` transfers along any map that preserves bankroll and bet. -/
lemma moneyOk_of_fields {ps qs : List Player} (h : MoneyOk ps)
    (hsub : ∀ q ∈ qs, ∃ p ∈ ps, q.bankroll = p.bankroll ∧ q.bet = p.bet) :
    MoneyOk qs := by
  intro q hq
  obtain ⟨p, hp, h1, h2⟩ := hsub q hq
  rw [h1, h2]
  exact h p hp

/-- Player actions never touch bankroll or bet. -/
lemma actOnPlayer_money (shoe : Shoe) (p : Player) (a : Action) :
    (actOnPlayer shoe p a).1.bankroll = p.bankroll ∧
    (actOnPlayer shoe p a).1.bet = p.bet := by
  cases a with
  | hit =>
    unfold actOnPlayer
    rcases shoe.draw with ⟨c, sh'⟩
    cases c
    · exact ⟨rfl, rfl⟩
    · dsimp only
      split_ifs <;> exact ⟨rfl, rfl⟩
  | stand => exact ⟨rfl, rfl⟩
  | double => exact ⟨rfl, rfl⟩
  | split => exact ⟨rfl, rfl⟩

/-- Dealing preserves bankroll and bet seat by seat. -/
lemma dealToPlayers_money (sh : Shoe) (ps : List Player) :
    ∀ q ∈ (dealToPlayers sh ps).2,
      ∃ p ∈ ps, q.bankroll = p.bankroll ∧ q.bet = p.bet := by
  induction ps generalizing sh with
  | nil =>
    intro q hq
    simp [dealToPlayers] at hq
  | cons r rs ih =>
    intro q hq
    simp only [dealToPlayers] at hq
    rcases List.mem_cons.mp hq with h1 | h1
    · refine ⟨r, List.mem_cons_self _ _, ?_⟩
      rw [h1]
      cases (sh.draw).1 <;> exact ⟨rfl, rfl⟩
    · obtain ⟨p, hp, hm⟩ := ih (sh.draw).2 q h1
      exact ⟨p, List.mem_cons_of_mem _ hp, hm⟩

/-- The constructor state is money-sound. -/
lemma moneyOk_initState (seed : Nat) : MoneyOk (initState seed).players := by
  intro p hp
  simp only [initState, List.mem_cons, List.not_mem_nil, or_false] at hp
  rcases hp with h | h | h <;> subst h <;> exact ⟨by decide, by decide⟩

/-- `placeBet` keeps every seat money-sound: a rejected bet changes
nothing, an accepted one escrows at most the available balance. -/
lemma moneyOk_placeBet (s : GameState) (seat : Nat) (amount : Int)
    (h : MoneyOk s.players) : MoneyOk (placeBet s seat amount).2.players := by
  by_cases hph : s.phase = Phase.betting
  · cases heq : findPlayer s.players seat with
    | none =>
      unfold placeBet
      rw [if_neg (by simp [hph]), heq]
      exact h
    | some player =>
      rw [placeBet_found s seat amount player hph heq]
      by_cases hc : amount < 0 ∨ amount > player.bankroll + player.bet ∨ amount > 100
      · rw [if_pos hc]
        exact h
      · rw [if_neg hc]
        intro q hq
        rcases mem_updatePlayer_cases heq hq with h1 | h1
        · exact h q h1
        · have hm := h player (findPlayer_mem heq)
          rw [h1]
          dsimp only
          refine ⟨?_, by omega⟩
          split_ifs <;> omega
  · unfold placeBet
    rw [if_pos hph]
    exact h

/-- Settlement only adds to a seat's bankroll (given a non-negative
bet) and never touches the bet. -/
lemma settlePlayer_money (d : List Nat) (p : Player) (hb : 0 ≤ p.bet) :
    p.bankroll ≤ (settlePlayer d p).1.bankroll ∧
    (settlePlayer d p).1.bet = p.bet := by
  unfold settlePlayer
  split
  · dsimp only
    refine ⟨?_, rfl⟩
    have hpay : (0 : Int) ≤ if isBlackjack p.cards then (3 * p.bet).fdiv 2 else p.bet := by
      split
      · exact Int.fdiv_nonneg (by omega) (by norm_num)
      · exact hb
    omega
  · exact ⟨le_rfl, rfl⟩
  · dsimp only
    exact ⟨by omega, rfl⟩

/-- `settleHands` keeps every seat money-sound. -/
lemma moneyOk_settleHands (s : GameState) (h : MoneyOk s.players) :
    MoneyOk (settleHands s).2.players := by
  intro q hq
  simp only [settleHands, List.map_map] at hq
  obtain ⟨p, hp, rfl⟩ := List.mem_map.mp hq
  have hm := h p hp
  have hs := settlePlayer_money s.dealer.cards p hm.2
  simp only [Function.comp]
  constructor
  · calc (0 : Int) ≤ p.bankroll := hm.1
      _ ≤ (settlePlayer s.dealer.cards p).1.bankroll := hs.1
  · rw [hs.2]
    exact hm.2

/-- The dealer's automatic play never touches the seats. -/
lemma playDealerHand_players (s : GameState) :
    (playDealerHand s).players = s.players := rfl

/-- Advancing the current player (with its automatic dealer-play and
settlement fallthrough) keeps every seat money-sound. -/
lemma moneyOk_findNext (s : GameState) (h : MoneyOk s.players) :
    MoneyOk (findNextActivePlayer s).players := by
  unfold findNextActivePlayer
  split
  · exact h
  · exact moneyOk_settleHands _ h

/-- `startNewHand` keeps bankrolls and zeroes bets. -/
lemma moneyOk_startNewHand (s : GameState) (h : MoneyOk s.players) :
    MoneyOk (startNewHand s).players := by
  intro q hq
  simp only [startNewHand] at hq
  obtain ⟨p, hp, rfl⟩ := List.mem_map.mp hq
  exact ⟨(h p hp).1, le_rfl⟩

/-- The initial deal keeps every seat money-sound. -/
lemma moneyOk_dealInitialCards (s : GameState) (h : MoneyOk s.players) :
    MoneyOk (dealInitialCards s).players := by
  have h1 : MoneyOk (dealRound s).players :=
    moneyOk_of_fields h (dealToPlayers_money s.shoe s.players)
  have h2 : MoneyOk (dealRound (dealRound s)).players :=
    moneyOk_of_fields h1 (dealToPlayers_money (dealRound s).shoe (dealRound s).players)
  intro q hq
  simp only [dealInitialCards] at hq
  obtain ⟨p, hp, rfl⟩ := List.mem_map.mp hq
  have hm := h2 p hp
  split_ifs <;> exact hm

/-- `startDealing` keeps every seat money-sound. -/
lemma moneyOk_startDealing (s : GameState) (h : MoneyOk s.players) :
    MoneyOk (startDealing s).players := by
  unfold startDealing
  split
  · exact h
  · exact moneyOk_dealInitialCards _ h

/-- `startDecisionPhase` keeps every seat money-sound. -/
lemma moneyOk_startDecisionPhase (s : GameState) (h : MoneyOk s.players) :
    MoneyOk (startDecisionPhase s).players := by
  unfold startDecisionPhase
  split
  · exact h
  · exact moneyOk_findNext _ h

/-- `applyPlayerAction` keeps every seat money-sound. -/
lemma moneyOk_applyPlayerAction (s : GameState) (seat : Nat) (action : Action)
    (h : MoneyOk s.players) : MoneyOk (applyPlayerAction s seat action).2.players := by
  unfold applyPlayerAction
  split
  · exact h
  · rename_i player heq
    split
    · exact h
    · have hupd : MoneyOk (updatePlayer s.players seat
          (fun _ => (actOnPlayer s.shoe player action).1)) := by
        intro q hq
        rcases mem_updatePlayer_cases heq hq with h1 | h1
        · exact h q h1
        · have hm := h player (findPlayer_mem heq)
          have ha := actOnPlayer_money s.shoe player action
          rw [h1, ha.1, ha.2]
          exact hm
      dsimp only
      split
      · exact moneyOk_findNext _ hupd
      · exact hupd

/-- Every reachable state is money-sound. -/
lemma reachable_moneyOk {s : GameState} (h : Reachable s) : MoneyOk s.players := by
  induction h with
  | init seed => exact moneyOk_initState seed
  | step hr hstep ih =>
    cases hstep with
    | placeBet seat amount => exact moneyOk_placeBet _ seat amount ih
    | startNewHand => exact moneyOk_startNewHand _ ih
    | startDealing => exact moneyOk_startDealing _ ih
    | startDecisionPhase => exact moneyOk_startDecisionPhase _ ih
    | applyPlayerAction seat action => exact moneyOk_applyPlayerAction _ seat action ih
    | playDealerHand => rw [playDealerHand_players]; exact ih
    | settleHands => exact moneyOk_settleHands _ ih
    | resetEntireGame newSeed => exact moneyOk_initState newSeed

end Blackjack

namespace Blackjack

/-! ## Claim theorems -/

/-- C1: the spec claims `shouldDealerHit` hits soft 17 ([1, 6]) and stands on
hard 17 ([10, 7]).  On the code, the soft-17 flag is set only when an ace
demotion lands on 17 — which happens exactly on hands that reach 17 by
demoting an ace (hard 17 with a converted ace) and never on a true soft 17,
where no demotion runs.  So the code stands on the soft 17 [1, 6],
contradicting the spec and the code's own comment, and hits the
hard 17 [1, 6, 10]. -/
theorem shouldDealerHit_soft17_inverted :
    shouldDealerHit [1, 6] = false ∧
    shouldDealerHit [10, 7] = false ∧
    shouldDealerHit [1, 6, 10] = true ∧
    calculateHandValue [1, 6] = 17 ∧
    calculateHandValue [1, 6, 10] = 17 := by
  decide

/-- C4: `determineHandResult` decides in order: player bust loses (even
against a dealer bust); else dealer bust wins; else double blackjack
pushes; else a lone blackjack wins for its holder; else the totals are
compared. -/
theorem determineHandResult_order (p d : List Nat) :
    (isBust p = true → determineHandResult p d = .lose) ∧
    (isBust p = false → isBust d = true → determineHandResult p d = .win) ∧
    (isBust p = false → isBust d = false → isBlackjack p = true →
      isBlackjack d = true → determineHandResult p d = .push) ∧
    (isBust p = false → isBust d = false → isBlackjack p = true →
      isBlackjack d = false → determineHandResult p d = .win) ∧
    (isBust p = false → isBust d = false → isBlackjack p = false →
      isBlackjack d = true → determineHandResult p d = .lose) ∧
    (isBust p = false → isBust d = false → isBlackjack p = false →
      isBlackjack d = false →
      determineHandResult p d =
        (if calculateHandValue p > calculateHandValue d then .win
         else if calculateHandValue p < calculateHandValue d then .lose
         else .push)) := by
  unfold determineHandResult
  refine ⟨?_, ?_, ?_, ?_, ?_, ?_⟩ <;> intros <;> simp_all

/-- C4 witness: a double bust is a loss. -/
theorem determineHandResult_order_witness :
    determineHandResult [10, 5, 10] [10, 6, 10] = .lose :=
  (determineHandResult_order [10, 5, 10] [10, 6, 10]).1 (by decide)

/-- C7: construction and `reset` produce a shoe determined by the stored
seed and deck count alone, so two shoes with equal seeds, reset with the
same deck count, yield identical draw sequences of any length. -/
theorem shoe_seed_determinism (s₁ s₂ : Shoe) (h : s₁.seed = s₂.seed)
    (decks n : Nat) :
    Shoe.new s₁.seed decks = s₁.reset decks ∧
    s₁.reset decks = s₂.reset decks ∧
    (s₁.reset decks).drawSeq n = (s₂.reset decks).drawSeq n := by
  have hr : s₁.reset decks = s₂.reset decks := by
    rw [Shoe.reset_eq, Shoe.reset_eq, h]
  exact ⟨rfl, hr, by rw [hr]⟩

/-- C7 witness: a fresh shoe and a dirty shoe with the same seed reset to
the same draw sequence. -/
theorem shoe_seed_determinism_witness :
    Shoe.new (Shoe.mk [] 0 5).seed 1 = (Shoe.mk [] 0 5).reset 1 ∧
    (Shoe.mk [] 0 5).reset 1 = (Shoe.mk [3] 1 5).reset 1 ∧
    ((Shoe.mk [] 0 5).reset 1).drawSeq 3 = ((Shoe.mk [3] 1 5).reset 1).drawSeq 3 :=
  shoe_seed_determinism (Shoe.mk [] 0 5) (Shoe.mk [3] 1 5) rfl 1 3

/-- C8: `reset` preserves the stored seed, so resetting again after any
number of draws rebuilds exactly the same shuffled order; `startNewHand`
performs such a reset (4 decks) whenever fewer than 20 cards remain. -/
theorem shoe_reset_repeats_order (sh : Shoe) (decks k : Nat) (gs : GameState)
    (h : gs.shoe.getCardsRemaining < 20) :
    (sh.reset decks).seed = sh.seed ∧
    ((sh.reset decks).drawN k).reset decks = sh.reset decks ∧
    (startNewHand gs).shoe = gs.shoe.reset 4 := by
  refine ⟨rfl, ?_, ?_⟩
  · rw [Shoe.reset_eq, Shoe.reset_eq, Shoe.drawN_seed]
  · simp only [startNewHand]
    rw [if_pos h]

/-- C8 witness: an exhausted two-card shoe reshuffles to its previous
order, and a state below the 20-card threshold reshuffles on
`startNewHand`. -/
theorem shoe_reset_repeats_order_witness :
    ((Shoe.mk [4, 9] 0 11).reset 1).seed = (Shoe.mk [4, 9] 0 11).seed ∧
    (((Shoe.mk [4, 9] 0 11).reset 1).drawN 2).reset 1 = (Shoe.mk [4, 9] 0 11).reset 1 ∧
    (startNewHand { initState 0 with shoe := Shoe.mk [] 0 9 }).shoe =
      (Shoe.mk [] 0 9).reset 4 :=
  shoe_reset_repeats_order (Shoe.mk [4, 9] 0 11) 1 2
    { initState 0 with shoe := Shoe.mk [] 0 9 } (by decide)

/-- C10: with an empty dealer hand, both snapshot builders report
`dealerUpcard = 1`, indistinguishable from a genuine ace upcard. -/
theorem emptyDealer_upcard_is_ace (s : GameState) (seat : Nat) (role : String)
    (h : s.dealer.cards = []) :
    (getPublicSnapshot s).dealerUpcard = 1 ∧
    ∀ io, buildAgentIO s seat role = some io → io.pub.dealerUpcard = 1 := by
  constructor
  · simp [getPublicSnapshot, h]
  · intro io hio
    unfold buildAgentIO at hio
    cases hf : findPlayer s.players seat with
    | none => rw [hf] at hio; cases hio
    | some player =>
      rw [hf] at hio
      cases hio
      simp [h]

/-- C10 witness: the constructor state (no dealer cards) reports an ace
upcard in both views. -/
theorem emptyDealer_upcard_is_ace_witness :
    (getPublicSnapshot (initState 7)).dealerUpcard = 1 :=
  (emptyDealer_upcard_is_ace (initState 7) 1 "decision" rfl).1

/-- C2: a public snapshot shows each seat's dealt cards as that seat's
visible cards and reads nothing of the dealer's hand beyond its first
card: two mid-decisions states differing only in the dealer's hole cards
produce identical snapshots, in both `getPublicSnapshot` and the
snapshot `buildAgentIO` hands to agents. -/
theorem publicSnapshot_redacts_holeCard (s : GameState) (d₁ d₂ : Dealer)
    (seat : Nat) (role : String) (_hphase : s.phase = Phase.decisions)
    (h : d₁.cards.head? = d₂.cards.head?) :
    (getPublicSnapshot s).players.map (fun q => (q.seat, q.visibleCards)) =
      s.players.map (fun p => (p.seat, p.cards)) ∧
    getPublicSnapshot { s with dealer := d₁ } =
      getPublicSnapshot { s with dealer := d₂ } ∧
    buildAgentIO { s with dealer := d₁ } seat role =
      buildAgentIO { s with dealer := d₂ } seat role := by
  have hup := headD_congr h
  refine ⟨?_, ?_, ?_⟩
  · simp [getPublicSnapshot, snapOfPlayer, List.map_map, Function.comp]
  · simp [getPublicSnapshot, h]
  · unfold buildAgentIO
    cases hf : findPlayer s.players seat <;> simp [hf, h]

/-- C2 witness: hiding or changing the dealer's hole card does not change
the snapshot of a mid-decisions state. -/
theorem publicSnapshot_redacts_holeCard_witness :
    (getPublicSnapshot { initState 3 with phase := .decisions }).players.map
        (fun q => (q.seat, q.visibleCards)) =
      ({ initState 3 with phase := .decisions } : GameState).players.map
        (fun p => (p.seat, p.cards)) ∧
    getPublicSnapshot { { initState 3 with phase := .decisions } with
        dealer := Dealer.mk [10] false false } =
      getPublicSnapshot { { initState 3 with phase := .decisions } with
        dealer := Dealer.mk [10, 7] false false } ∧
    buildAgentIO { { initState 3 with phase := .decisions } with
        dealer := Dealer.mk [10] false false } 0 "decision" =
      buildAgentIO { { initState 3 with phase := .decisions } with
        dealer := Dealer.mk [10, 7] false false } 0 "decision" :=
  publicSnapshot_redacts_holeCard { initState 3 with phase := .decisions }
    (Dealer.mk [10] false false) (Dealer.mk [10, 7] false false) 0 "decision"
    rfl rfl

/-- C3: `settleHands` rewrites each seat by `settlePlayer`, which adds
bet plus payout on a win (payout `⌊1.5·bet⌋` for a two-card blackjack,
`bet` otherwise), returns exactly the bet on a push, and leaves the
bankroll untouched on a loss. -/
theorem settleHands_bankroll_effects (s : GameState) (p : Player) :
    (settleHands s).2.players =
      s.players.map (fun q => (settlePlayer s.dealer.cards q).1) ∧
    (determineHandResult p.cards s.dealer.cards = .win →
      (settlePlayer s.dealer.cards p).1.bankroll =
        p.bankroll + p.bet +
          (if isBlackjack p.cards then (3 * p.bet).fdiv 2 else p.bet)) ∧
    (determineHandResult p.cards s.dealer.cards = .push →
      (settlePlayer s.dealer.cards p).1.bankroll = p.bankroll + p.bet) ∧
    (determineHandResult p.cards s.dealer.cards = .lose →
      (settlePlayer s.dealer.cards p).1.bankroll = p.bankroll) := by
  refine ⟨?_, ?_, ?_, ?_⟩
  · simp [settleHands, List.map_map, Function.comp]
  all_goals
    intro h
    unfold settlePlayer
    rw [h]

/-- C3 witness: bankroll 100 at settlement, escrowed bet 20, two-card
blackjack win against a dealer 19 settles to 150. -/
theorem settleHands_bankroll_effects_witness :
    (settlePlayer
        ({ initState 0 with dealer := Dealer.mk [10, 9] true false } :
          GameState).dealer.cards
        (Player.mk "x" 0 [1, 10] 20 true false none 100)).1.bankroll = 150 := by
  have h := (settleHands_bankroll_effects
    { initState 0 with dealer := Dealer.mk [10, 9] true false }
    (Player.mk "x" 0 [1, 10] 20 true false none 100)).2.1 (by decide)
  rw [h]
  decide

/-- C5: `placeBet` rejects, returning `false` with the state unchanged,
outside the betting phase, for an unknown seat, and for a negative,
over-cap (> 100) or over-balance (> bankroll + escrowed bet) amount; in
all remaining cases it returns `true`. -/
theorem placeBet_validation (s : GameState) (seat : Nat) (amount : Int) :
    (s.phase ≠ .betting → placeBet s seat amount = (false, s)) ∧
    (findPlayer s.players seat = none → placeBet s seat amount = (false, s)) ∧
    ∀ p, findPlayer s.players seat = some p →
      ((amount < 0 ∨ 100 < amount ∨ p.bankroll + p.bet < amount) →
        placeBet s seat amount = (false, s)) ∧
      (s.phase = .betting → 0 ≤ amount → amount ≤ 100 →
        amount ≤ p.bankroll + p.bet → (placeBet s seat amount).1 = true) := by
  refine ⟨?_, ?_, ?_⟩
  · intro h
    unfold placeBet
    rw [if_pos h]
  · intro h
    unfold placeBet
    split
    · rfl
    · rw [h]
  · intro p hp
    constructor
    · intro hbad
      by_cases hph : s.phase = Phase.betting
      · rw [placeBet_found s seat amount p hph hp, if_pos (by omega)]
      · unfold placeBet
        rw [if_pos (by simp [hph])]
    · intro hph h0 h100 hbal
      rw [placeBet_found s seat amount p hph hp, if_neg (by omega)]

/-- C9: a `hit` on an exhausted shoe still succeeds and records the
action, but deals no card, leaves the seat neither standing nor busted,
and keeps it the current player. -/
theorem applyPlayerAction_hit_exhausted (s : GameState) (seat : Nat) (p : Player)
    (hfind : findPlayer s.players seat = some p)
    (hstand : p.isStanding = false) (hbust : p.isBusted = false)
    (hexh : s.shoe.cards.length ≤ s.shoe.dealt) :
    applyPlayerAction s seat .hit =
      (true, { s with players := updatePlayer s.players seat (fun _ => { p with lastAction := some Action.hit }) }) ∧
    (applyPlayerAction s seat .hit).2.currentPlayerIndex = s.currentPlayerIndex ∧
    findPlayer (applyPlayerAction s seat .hit).2.players seat =
      some { p with lastAction := some Action.hit } := by
  have hdraw : s.shoe.draw = (none, s.shoe) := by
    unfold Shoe.draw
    rw [if_pos hexh]
  have hact : actOnPlayer s.shoe p .hit =
      ({ p with lastAction := some Action.hit }, s.shoe) := by
    unfold actOnPlayer
    rw [hdraw]
  have hmain : applyPlayerAction s seat .hit =
      (true, { s with players := updatePlayer s.players seat (fun _ => { p with lastAction := some Action.hit }) }) := by
    unfold applyPlayerAction
    rw [hfind]
    simp only [hstand, hbust, Bool.or_false, Bool.false_or, hact]
    exact if_neg (by simp)
  refine ⟨hmain, ?_, ?_⟩
  · rw [hmain]
  · rw [hmain]
    exact findPlayer_updatePlayer hfind _ rfl

/-- The C9 witness state: mid-decisions, seat 0 current, over a one-card
shoe that is already dealt out. -/
def exhaustedShoeState : GameState :=
  { initState 7 with phase := .decisions, currentPlayerIndex := 0,
                     shoe := Shoe.mk [5] 1 0 }

/-- C9 witness: with the shoe dealt out, a hit on seat 0 succeeds yet
only records `lastAction = hit`, leaving cards, flags and the current
player untouched. -/
theorem applyPlayerAction_hit_exhausted_witness :
    applyPlayerAction exhaustedShoeState 0 .hit =
      (true, { exhaustedShoeState with players := updatePlayer exhaustedShoeState.players 0 (fun _ => { initPlayer "Pat Python" 0 with lastAction := some Action.hit }) }) :=
  (applyPlayerAction_hit_exhausted exhaustedShoeState 0 (initPlayer "Pat Python" 0)
    rfl rfl rfl (by decide)).1

/-- C5 witness: in the betting phase, a 101-unit bet is rejected without
touching the state, and a 100-unit bet within balance is accepted. -/
theorem placeBet_validation_witness :
    placeBet { initState 2 with phase := .betting } 0 101 =
      (false, { initState 2 with phase := .betting }) ∧
    (placeBet { initState 2 with phase := .betting } 0 100).1 = true :=
  ⟨((placeBet_validation { initState 2 with phase := .betting } 0 101).2.2
      (initPlayer "Pat Python" 0) rfl).1 (by decide),
   ((placeBet_validation { initState 2 with phase := .betting } 0 100).2.2
      (initPlayer "Pat Python" 0) rfl).2 rfl (by decide) (by decide) (by decide)⟩

/-- C6: every state reachable through the engine's operations (betting,
dealing, player actions, dealer play, settlement, new hand, reset) keeps
every seat's bankroll non-negative; moreover settlement never decreases
a bankroll — both per seat via `settlePlayer` and across the whole
`settleHands` pass. -/
theorem reachable_bankroll_nonneg (s : GameState) (h : Reachable s) :
    (∀ p ∈ s.players, 0 ≤ p.bankroll ∧
       p.bankroll ≤ (settlePlayer s.dealer.cards p).1.bankroll) ∧
    ∀ q ∈ (settleHands s).2.players, 0 ≤ q.bankroll := by
  have hm := reachable_moneyOk h
  constructor
  · intro p hp
    exact ⟨(hm p hp).1, (settlePlayer_money s.dealer.cards p (hm p hp).2).1⟩
  · intro q hq
    exact (moneyOk_settleHands s hm q hq).1

/-- C6 witness: the invariant instantiated at the constructor state and
its first seat. -/
theorem reachable_bankroll_nonneg_witness :
    0 ≤ (initPlayer "Pat Python" 0).bankroll ∧
    (initPlayer "Pat Python" 0).bankroll ≤
      (settlePlayer (initState 0).dealer.cards (initPlayer "Pat Python" 0)).1.bankroll :=
  (reachable_bankroll_nonneg (initState 0) (Reachable.init 0)).1
    (initPlayer "Pat Python" 0) (by decide)

end Blackjack
